import Mathlib

/-!
Shallow embedding of the PDF-splitter backend core (`backend/main.py`):
the page-selection parser `parse_page_selection`, the page-extraction loop
of `split_pdf`, and the per-file loop of `batch_process`.  Strings are
modelled as `List Char`; Python integers as `Int`; raised `ValueError`s /
`HTTPException`s as the `Except.error` branch carrying the message string.
-/

/-- Python whitespace characters recognised by `str.strip` (ASCII range). -/
def isPySpace (c : Char) : Bool :=
  c = ' ' || c = '\t' || c = '\n' || c = '\r' || c = '\x0b' || c = '\x0c'

/-- `str.strip()`: drop leading and trailing whitespace. -/
def pyStripChars (l : List Char) : List Char :=
  ((l.dropWhile isPySpace).reverse.dropWhile isPySpace).reverse

/-- Trailing-whitespace trim (`str.rstrip()`), used to state the spec's
"trimmed of trailing whitespace". -/
def pyRStripChars (l : List Char) : List Char :=
  (l.reverse.dropWhile isPySpace).reverse

/-- Python `str.split(sep)` with a one-character separator: splitting the
empty string gives `[[]]`, and separators at the ends produce empty pieces. -/
def splitOnChar (sep : Char) : List Char → List (List Char)
  | [] => [[]]
  | c :: rest =>
    let r := splitOnChar sep rest
    if c = sep then [] :: r
    else
      match r with
      | [] => [[c]]
      | h :: t => (c :: h) :: t

/-- Decimal digit run to a number; `none` unless the list is a nonempty
all-digit run. -/
def decimalDigits? (l : List Char) : Option Nat :=
  if l.isEmpty then none
  else if l.all Char.isDigit then
    some (l.foldl (fun n c => n * 10 + (c.toNat - 48)) 0)
  else none

/-- Python `repr` of a simple string, as it appears in `int()` error
messages: the text surrounded by single quotes. -/
def pyRepr (l : List Char) : String :=
  String.mk ('\x27' :: (l ++ ['\x27']))

/-- Python `int(s)`: strips whitespace, allows one optional sign, then a
nonempty digit run; otherwise raises
`ValueError: invalid literal for int() with base 10: repr(s)`. -/
def pyInt (orig : List Char) : Except String Int :=
  let t := pyStripChars orig
  let signed : Int × List Char :=
    match t with
    | '+' :: rest => (1, rest)
    | '-' :: rest => (-1, rest)
    | _ => (1, t)
  match decimalDigits? signed.2 with
  | some n => .ok (signed.1 * (n : Int))
  | none => .error ("invalid literal for int() with base 10: " ++ pyRepr orig)

/-- Python tuple unpacking `start, end = map(int, parts)`: the lazy `map`
converts elements as the unpack consumes them, so conversion errors on the
first, second, and (when present) third element fire before the
too-many/not-enough `ValueError`s. -/
def pyMapIntUnpack2 (parts : List (List Char)) : Except String (Int × Int) :=
  match parts with
  | [] => .error "not enough values to unpack (expected 2, got 0)"
  | [a] =>
    match pyInt a with
    | .error e => .error e
    | .ok _ => .error "not enough values to unpack (expected 2, got 1)"
  | [a, b] =>
    match pyInt a with
    | .error e => .error e
    | .ok x =>
      match pyInt b with
      | .error e => .error e
      | .ok y => .ok (x, y)
  | a :: b :: c :: _ =>
    match pyInt a with
    | .error e => .error e
    | .ok _ =>
      match pyInt b with
      | .error e => .error e
      | .ok _ =>
        match pyInt c with
        | .error e => .error e
        | .ok _ => .error "too many values to unpack (expected 2)"

/-- Python `range(s, e + 1)` as a list of integers (empty when `e < s`). -/
def pyRange (s e : Int) : List Int :=
  (List.range (e + 1 - s).toNat).map (fun (i : Nat) => s + (i : Int))

/-- One iteration of the `for part in pages_str.split(',')` loop body of
`parse_page_selection` (main.py lines 85-96): strip the part, treat it as
an inclusive range when it contains a hyphen and as a single page number
otherwise, with the bounds checks and error messages of the source. -/
def parsePart (part : List Char) (maxPages : Int) : Except String (List Int) :=
  let p := pyStripChars part
  if p.contains '-' then
    match pyMapIntUnpack2 (splitOnChar '-' p) with
    | .error e => .error e
    | .ok (s, e) =>
      if s < 1 || e > maxPages then
        .error ("Page range " ++ toString s ++ "-" ++ toString e ++
                " is out of range (1-" ++ toString maxPages ++ ")")
      else .ok (pyRange s e)
  else
    match pyInt p with
    | .error e => .error e
    | .ok n =>
      if n < 1 || n > maxPages then
        .error ("Page " ++ toString n ++ " is out of range (1-" ++
                toString maxPages ++ ")")
      else .ok [n]

/-- The accumulating loop of `parse_page_selection`: `page_numbers` grows by
each part's expansion; the first `ValueError` aborts the whole call. -/
def collectParts (parts : List (List Char)) (maxPages : Int) (acc : List Int) :
    Except String (List Int) :=
  match parts with
  | [] => .ok acc
  | part :: rest =>
    match parsePart part maxPages with
    | .error e => .error e
    | .ok l => collectParts rest maxPages (acc ++ l)

/-- Python `sorted(list(set(page_numbers)))`: the distinct values in
ascending order. -/
def sortedDedup (nums : List Int) : List Int :=
  List.insertionSort (· ≤ ·) nums.dedup

/-- `parse_page_selection(pages_str, max_pages)` (main.py lines 82-99). -/
def parse_page_selection (pagesStr : List Char) (maxPages : Int) :
    Except String (List Int) :=
  match collectParts (splitOnChar ',' pagesStr) maxPages [] with
  | .error e => .error e
  | .ok nums => .ok (sortedDedup nums)

/-- A page as handed over by the PDF codec: an opaque content stand-in plus
the text that `page.extract_text()` returns for it. -/
structure PyPage where
  content : Nat
  text : String
deriving DecidableEq

def defaultPage : PyPage := ⟨0, ""⟩

/-- `pdf_reader.pages[page_num - 1]`.  Every page number produced by
`parse_page_selection` is at least 1, so this is plain nonnegative list
indexing. -/
def pageAt (pages : List PyPage) (n : Int) : PyPage :=
  pages.getD (n - 1).toNat defaultPage

/-- The f-string block appended for one page in `split_pdf` (main.py line
150): header line with the 1-based page number, the page's text, and a
blank line. -/
def pageBlock (pages : List PyPage) (n : Int) : List Char :=
  "=== Page ".data ++ (toString n).data ++ " ===\n".data ++
    (pageAt pages n).text.data ++ "\n\n".data

/-- The extraction loop of `split_pdf` (main.py lines 147-151): the writer
collects the selected pages while `extracted_text` accumulates the blocks. -/
def split_pdf_loop (pages : List PyPage) (pageNumbers : List Int) :
    List PyPage × List Char :=
  pageNumbers.foldl
    (fun acc n => (acc.1 ++ [pageAt pages n], acc.2 ++ pageBlock pages n))
    ([], [])

/-- `extracted_text.strip()` as returned by `split_pdf` (main.py line 169). -/
def split_pdf_text (pages : List PyPage) (pageNumbers : List Int) : List Char :=
  pyStripChars (split_pdf_loop pages pageNumbers).2

/-- Written from the spec's words (§4.2), for comparison with
`split_pdf_text`: for each selected page in order a separator block, the
whole concatenation trimmed of trailing whitespace. -/
def specExtractedText (pages : List PyPage) (pageNumbers : List Int) : List Char :=
  pyRStripChars ((pageNumbers.map (pageBlock pages)).flatten)

/-- An uploaded file as the batch endpoint sees it: its name, and the
outcome of reading its bytes with `PyPDF2.PdfReader` (the page list on
success, the exception message on failure). -/
structure PyUploadFile where
  filename : List Char
  readResult : Except String (List PyPage)

/-- `file.filename.lower().endswith(".pdf")` (main.py line 193). -/
def endsWithPdf (name : List Char) : Bool :=
  ".pdf".data.isSuffixOf (name.map Char.toLower)

/-- `os.path.splitext(name)[0]`: everything before the last dot, except
that a name whose characters before the last dot are all dots has no
extension and is returned whole. -/
def splitextStem (name : List Char) : List Char :=
  if name.contains '.' then
    let i := name.length - 1 - (name.reverse.takeWhile (fun c => c ≠ '.')).length
    if (name.take i).all (fun c => c = '.') then name else name.take i
  else name

/-- The per-document writer loop of `batch_process` (main.py lines 209-211). -/
def writerPages (pages : List PyPage) (pageNumbers : List Int) : List PyPage :=
  pageNumbers.foldl (fun acc n => acc ++ [pageAt pages n]) []

/-- The mutable state of the batch loop: `processed_files`, `errors`, and
the ZIP entries written so far. -/
structure BatchState where
  processed : Nat
  errors : List String
  archive : List (String × List PyPage)
deriving DecidableEq

/-- The response model `BatchProcessResponse` (the fields the core fills). -/
structure BatchResponse where
  processed_files : Nat
  total_files : Nat
  errors : List String
  archive : List (String × List PyPage)
deriving DecidableEq

/-- One iteration of the `for file in files` loop of `batch_process`
(main.py lines 191-221): skip non-PDF names, convert a reader failure or a
`parse_page_selection` `ValueError` into a recorded error string, and on
success add one ZIP entry and bump the counter. -/
def batchStep (pagesStr : List Char) (st : BatchState) (f : PyUploadFile) :
    BatchState :=
  if endsWithPdf f.filename = false then
    { st with errors := st.errors ++
        ["Skipped " ++ String.mk f.filename ++ ": Not a PDF file"] }
  else
    match f.readResult with
    | .error e =>
      { st with errors := st.errors ++
          ["Error processing " ++ String.mk f.filename ++ ": " ++ e] }
    | .ok pdfPages =>
      match parse_page_selection pagesStr (pdfPages.length : Int) with
      | .error e =>
        { st with errors := st.errors ++
            ["Skipped " ++ String.mk f.filename ++ ": " ++ e] }
      | .ok nums =>
        { st with
            processed := st.processed + 1
            archive := st.archive ++
              [("extracted_" ++ String.mk (splitextStem f.filename) ++ ".pdf",
                writerPages pdfPages nums)] }

/-- `batch_process` (main.py lines 178-234): guard against an empty upload
list, run the loop, delete the ZIP and fail when nothing was processed,
otherwise return the report.  The `Except.error` branch models the raised
`HTTPException`: no archive is handed to the caller there. -/
def batch_process (files : List PyUploadFile) (pagesStr : List Char) :
    Except String BatchResponse :=
  if files.isEmpty then .error "No files uploaded"
  else
    let st := files.foldl (batchStep pagesStr) ⟨0, [], []⟩
    if st.processed = 0 then .error "No files were processed successfully"
    else .ok ⟨st.processed, files.length, st.errors, st.archive⟩

/-- Observable summary of a batch outcome: `none` on failure, otherwise the
counters and error list of the response. -/
def respSummary (r : Except String BatchResponse) :
    Option (Nat × Nat × List String) :=
  match r with
  | .ok resp => some (resp.processed_files, resp.total_files, resp.errors)
  | .error _ => none

def startsWithSeq : List Char → List Char → Bool
  | [], _ => true
  | _ :: _, [] => false
  | a :: as, b :: bs => a = b && startsWithSeq as bs

/-- Substring containment over character lists, used to state that an error
message mentions a token. -/
def hasSubSeq (pat l : List Char) : Bool :=
  startsWithSeq pat l ||
    match l with
    | [] => false
    | _ :: rest => hasSubSeq pat rest

/-- A file the batch loop fully processes: PDF name, readable, and the
shared expression parses against its page count. -/
def fileSucceeds (pagesStr : List Char) (f : PyUploadFile) : Prop :=
  endsWithPdf f.filename = true ∧
  ∃ pg nums, f.readResult = .ok pg ∧
    parse_page_selection pagesStr (pg.length : Int) = .ok nums

/-- Whether an `Except` result is a success. -/
def isOkExcept {ε : Type} {α : Type} : Except ε α → Bool
  | .ok _ => true
  | .error _ => false

/-- The expansion of one valid token (the list `parsePart` returns;
irrelevant default for failing tokens). -/
def partValue (m : Int) (part : List Char) : List Int :=
  match parsePart part m with
  | .ok l => l
  | .error _ => []

theorem collectParts_all_ok (m : Int) :
    ∀ (parts : List (List Char)) (acc : List Int),
      (∀ tok ∈ parts, isOkExcept (parsePart tok m) = true) →
      collectParts parts m acc = .ok (acc ++ (parts.map (partValue m)).flatten) := by
  intro parts
  induction parts with
  | nil => intro acc _; simp [collectParts]
  | cons p rest ih =>
    intro acc h
    have hp := h p (by simp)
    cases hpp : parsePart p m with
    | error e => rw [hpp] at hp; simp [isOkExcept] at hp
    | ok l =>
      have hv : partValue m p = l := by simp [partValue, hpp]
      simp only [collectParts, hpp, List.map_cons, List.flatten_cons]
      rw [ih (acc ++ l) (fun tok htok => h tok (by simp [htok])), hv,
        List.append_assoc]

theorem sortedDedup_sorted_lt (l : List Int) : (sortedDedup l).Sorted (· < ·) := by
  have hs : (sortedDedup l).Sorted (· ≤ ·) := List.sorted_insertionSort _ _
  have hn : (sortedDedup l).Nodup :=
    (List.perm_insertionSort (· ≤ ·) l.dedup).nodup_iff.mpr (List.nodup_dedup l)
  exact hs.lt_of_le hn

theorem mem_sortedDedup (l : List Int) (x : Int) : x ∈ sortedDedup l ↔ x ∈ l := by
  unfold sortedDedup
  rw [(List.perm_insertionSort (· ≤ ·) l.dedup).mem_iff, List.mem_dedup]

theorem sortedDedup_eq_of_perm {l l' : List Int} (h : l.Perm l') :
    sortedDedup l = sortedDedup l' := by
  exact List.eq_of_perm_of_sorted
    ((List.perm_insertionSort _ _).trans
      (h.dedup.trans (List.perm_insertionSort _ _).symm))
    (List.sorted_insertionSort _ _) (List.sorted_insertionSort _ _)

theorem sortedDedup_idem (l : List Int) :
    sortedDedup (sortedDedup l) = sortedDedup l := by
  have hn : (sortedDedup l).Nodup :=
    (List.perm_insertionSort (· ≤ ·) l.dedup).nodup_iff.mpr (List.nodup_dedup l)
  have hs : (sortedDedup l).Sorted (· ≤ ·) := List.sorted_insertionSort _ _
  show List.insertionSort (· ≤ ·) (sortedDedup l).dedup = sortedDedup l
  rw [List.dedup_eq_self.mpr hn]
  exact List.eq_of_perm_of_sorted (List.perm_insertionSort _ _)
    (List.sorted_insertionSort _ _) hs

theorem perm_flatten {α : Type} {l₁ l₂ : List (List α)} (h : l₁.Perm l₂) :
    l₁.flatten.Perm l₂.flatten := by
  induction h with
  | nil => rfl
  | cons x _ ih => simpa using ih.append_left x
  | swap x y l =>
    simp only [List.flatten_cons]
    rw [← List.append_assoc, ← List.append_assoc]
    exact List.perm_append_comm.append_right _
  | trans _ _ ih₁ ih₂ => exact ih₁.trans ih₂

/-- C1: when every token of the expression is valid against `total_pages`,
`parse_page_selection` returns the token-expanded page numbers with
duplicates removed and sorted strictly ascending (so input token order is
irrelevant to the result); in particular `parse("2,1,2", 5) = [1, 2]` and
`parse("1-3,5", 5) = [1, 2, 3, 5]`. -/
theorem c1_parse_sorts_and_dedups (s : List Char) (m : Int)
    (h : ∀ tok ∈ splitOnChar ',' s, isOkExcept (parsePart tok m) = true) :
    parse_page_selection s m =
      .ok (sortedDedup ((splitOnChar ',' s).map (partValue m)).flatten) ∧
    (sortedDedup ((splitOnChar ',' s).map (partValue m)).flatten).Sorted (· < ·) ∧
    (∀ x, x ∈ sortedDedup ((splitOnChar ',' s).map (partValue m)).flatten ↔
       x ∈ ((splitOnChar ',' s).map (partValue m)).flatten) ∧
    parse_page_selection "2,1,2".data 5 = .ok [1, 2] ∧
    parse_page_selection "1-3,5".data 5 = .ok [1, 2, 3, 5] := by
  refine ⟨?_, sortedDedup_sorted_lt _, fun x => mem_sortedDedup _ x, rfl, rfl⟩
  unfold parse_page_selection
  rw [collectParts_all_ok m _ [] h]
  simp

theorem c1_witness :
    (∀ tok ∈ splitOnChar ',' "2,1,2".data,
       isOkExcept (parsePart tok 5) = true) ∧
    parse_page_selection "2,1,2".data 5 =
      .ok (sortedDedup ((splitOnChar ',' "2,1,2".data).map (partValue 5)).flatten) := by
  have h : ∀ tok ∈ splitOnChar ',' "2,1,2".data,
      isOkExcept (parsePart tok 5) = true := by decide
  exact ⟨h, (c1_parse_sorts_and_dedups "2,1,2".data 5 h).1⟩

/-- C7: for a fixed `total_pages`, parsing an expression whose token list
is a permutation of another valid expression's token list gives an
identical result, and the sort-and-dedup normalisation is idempotent. -/
theorem c7_parse_token_order_irrelevant (s t : List Char) (m : Int)
    (hs : ∀ tok ∈ splitOnChar ',' s, isOkExcept (parsePart tok m) = true)
    (hperm : (splitOnChar ',' s).Perm (splitOnChar ',' t)) :
    parse_page_selection s m = parse_page_selection t m ∧
    (∀ l : List Int, sortedDedup (sortedDedup l) = sortedDedup l) := by
  refine ⟨?_, sortedDedup_idem⟩
  have ht : ∀ tok ∈ splitOnChar ',' t, isOkExcept (parsePart tok m) = true :=
    fun tok htok => hs tok (hperm.mem_iff.mpr htok)
  unfold parse_page_selection
  rw [collectParts_all_ok m _ [] hs, collectParts_all_ok m _ [] ht]
  simp only [List.nil_append]
  rw [sortedDedup_eq_of_perm (perm_flatten (hperm.map (partValue m)))]

theorem c7_witness :
    (∀ tok ∈ splitOnChar ',' "1-2,3".data,
       isOkExcept (parsePart tok 3) = true) ∧
    (splitOnChar ',' "1-2,3".data).Perm (splitOnChar ',' "3,1-2".data) ∧
    parse_page_selection "1-2,3".data 3 = parse_page_selection "3,1-2".data 3 := by
  have h1 : ∀ tok ∈ splitOnChar ',' "1-2,3".data,
      isOkExcept (parsePart tok 3) = true := by decide
  have h2 : (splitOnChar ',' "1-2,3".data).Perm (splitOnChar ',' "3,1-2".data) := by
    decide
  exact ⟨h1, h2, (c7_parse_token_order_irrelevant "1-2,3".data "3,1-2".data 3 h1 h2).1⟩

/-- C9: a reversed range token `start-end` whose bounds pass the source's
check (`start ≥ 1`, `end ≤ total_pages`) does not fail: it expands to no
page numbers, an expression made only of such tokens parses to the empty
list, and in particular `parse("5-2", 5) = []`. -/
theorem c9_reversed_range_accepted_empty :
    (∀ (tok : List Char) (s e m : Int),
       (pyStripChars tok).contains '-' = true →
       pyMapIntUnpack2 (splitOnChar '-' (pyStripChars tok)) = .ok (s, e) →
       1 ≤ s → e ≤ m → e < s →
       parsePart tok m = .ok []) ∧
    (∀ (s : List Char) (m : Int),
       (∀ tok ∈ splitOnChar ',' s, parsePart tok m = .ok []) →
       parse_page_selection s m = .ok []) ∧
    parse_page_selection "5-2".data 5 = .ok [] := by
  refine ⟨?_, ?_, rfl⟩
  · intro tok s e m hc hun hs he hlt
    unfold parsePart
    simp only [hc, if_true, hun]
    have h1 : ¬(s < 1 || e > m) = true := by
      simp only [Bool.or_eq_true, decide_eq_true_eq]
      push_neg
      exact ⟨by omega, by omega⟩
    rw [if_neg h1]
    have : (e + 1 - s).toNat = 0 := by omega
    simp [pyRange, this]
  · intro s m h
    have hok : ∀ tok ∈ splitOnChar ',' s, isOkExcept (parsePart tok m) = true := by
      intro tok htok; rw [h tok htok]; rfl
    unfold parse_page_selection
    rw [collectParts_all_ok m _ [] hok]
    have hz : ((splitOnChar ',' s).map (partValue m)).flatten = [] := by
      rw [List.flatten_eq_nil_iff]
      intro l hl
      rcases List.mem_map.mp hl with ⟨tok, htok, hv⟩
      rw [← hv]
      simp [partValue, h tok htok]
    rw [hz]
    rfl

theorem c9_witness : parsePart "5-2".data 5 = .ok [] :=
  c9_reversed_range_accepted_empty.1 "5-2".data 5 2 5 rfl rfl
    (by decide) (by decide) (by decide)

theorem startsWithSeq_self_append :
    ∀ (p r : List Char), startsWithSeq p (p ++ r) = true := by
  intro p
  induction p with
  | nil => intro r; rfl
  | cons c t ih => intro r; simp [startsWithSeq, ih]

theorem hasSubSeq_of_startsWith {p l : List Char}
    (h : startsWithSeq p l = true) : hasSubSeq p l = true := by
  cases l with
  | nil => unfold hasSubSeq; rw [h]; rfl
  | cons c rest => unfold hasSubSeq; rw [h]; rfl

theorem hasSubSeq_append_right :
    ∀ (l m p : List Char), hasSubSeq p m = true → hasSubSeq p (l ++ m) = true := by
  intro l
  induction l with
  | nil => intro m p h; simpa using h
  | cons c t ih =>
    intro m p h
    show (startsWithSeq p (c :: t ++ m) || hasSubSeq p (t ++ m)) = true
    rw [ih m p h]
    simp

/-- C6 counterexample: with `total_pages == 0`, the non-empty range token
"1-0" does not fail: its bounds pass the source's check (`1 ≥ 1`,
`0 ≤ 0`) and it expands to no pages, so `parse("1-0", 0)` succeeds with
the empty list — contradicting the claim that every non-empty token fails. -/
theorem c6_counterexample_range_token_zero_pages :
    parse_page_selection "1-0".data 0 = .ok [] ∧
    "1-0".data ≠ ([] : List Char) ∧
    pyStripChars "1-0".data = "1-0".data :=
  ⟨rfl, by decide, rfl⟩

/-- C6 (amended): when `total_pages == 0`, every token without a hyphen
fails (no valid single page exists), and a range token `start-end` fails
whenever `start < 1` or `end ≥ 1`; but a range token with `start ≥ 1` and
`end ≤ 0` (such as "1-0") is accepted and contributes no pages. -/
theorem c6_amended_zero_pages (tok : List Char) (s e : Int) :
    ((pyStripChars tok).contains '-' = false →
       isOkExcept (parsePart tok 0) = false) ∧
    ((pyStripChars tok).contains '-' = true →
       pyMapIntUnpack2 (splitOnChar '-' (pyStripChars tok)) = .ok (s, e) →
       (s < 1 ∨ 1 ≤ e) → isOkExcept (parsePart tok 0) = false) ∧
    ((pyStripChars tok).contains '-' = true →
       pyMapIntUnpack2 (splitOnChar '-' (pyStripChars tok)) = .ok (s, e) →
       1 ≤ s → e ≤ 0 → parsePart tok 0 = .ok []) ∧
    parse_page_selection "1-0".data 0 = .ok [] := by
  refine ⟨?_, ?_, ?_, rfl⟩
  · intro hcf
    simp only [parsePart]
    rw [if_neg (by rw [hcf]; simp)]
    cases hi : pyInt (pyStripChars tok) with
    | error msg => simp [isOkExcept]
    | ok n =>
      have hcond : (decide (n < 1) || decide (n > (0 : Int))) = true := by
        rcases lt_or_le n 1 with hlt | hge
        · simp [hlt]
        · simp [show (0 : Int) < n by omega]
      simp [hcond, isOkExcept]
  · intro hc hun hrange
    simp only [parsePart]
    rw [if_pos hc, hun]
    have hcond : (decide (s < 1) || decide (e > (0 : Int))) = true := by
      rcases hrange with h | h
      · simp [h]
      · simp [show (0 : Int) < e by omega]
    simp [hcond, isOkExcept]
  · intro hc hun hs he
    simp only [parsePart]
    rw [if_pos hc, hun]
    have hcond : (decide (s < 1) || decide (e > (0 : Int))) = false := by
      simp only [Bool.or_eq_false_iff, decide_eq_false_iff_not]
      exact ⟨by omega, by omega⟩
    simp [hcond, pyRange, show (e + 1 - s).toNat = 0 by omega]

theorem c6_witness :
    isOkExcept (parsePart "2".data 0) = false ∧
    isOkExcept (parsePart "2-1".data 0) = false ∧
    parsePart "1-0".data 0 = .ok [] :=
  ⟨(c6_amended_zero_pages "2".data 1 0).1 rfl,
   (c6_amended_zero_pages "2-1".data 2 1).2.1 rfl rfl (Or.inr (by decide)),
   (c6_amended_zero_pages "1-0".data 1 0).2.2.1 rfl rfl (by decide) (by decide)⟩

theorem split_pdf_loop_closed (pages : List PyPage) :
    ∀ (nums : List Int) (a : List PyPage) (t : List Char),
      nums.foldl
        (fun acc n => (acc.1 ++ [pageAt pages n], acc.2 ++ pageBlock pages n))
        (a, t) =
      (a ++ nums.map (pageAt pages), t ++ (nums.map (pageBlock pages)).flatten) := by
  intro nums
  induction nums with
  | nil => intro a t; simp
  | cons n rest ih =>
    intro a t
    simp only [List.foldl_cons, List.map_cons, List.flatten_cons]
    rw [ih]
    simp [List.append_assoc]

theorem split_pdf_loop_eq (pages : List PyPage) (nums : List Int) :
    split_pdf_loop pages nums =
      (nums.map (pageAt pages), (nums.map (pageBlock pages)).flatten) := by
  unfold split_pdf_loop
  rw [split_pdf_loop_closed pages nums [] []]
  simp

theorem map_pageAt_range (pages : List PyPage) :
    (pyRange 1 (pages.length : Int)).map (pageAt pages) = pages := by
  unfold pyRange
  rw [show ((pages.length : Int) + 1 - 1).toNat = pages.length by omega]
  apply List.ext_getElem
  · simp only [List.length_map, List.length_range]
  · intro i h1 h2
    simp only [List.getElem_map, List.getElem_range]
    unfold pageAt
    rw [show ((1 : Int) + (i : Int) - 1).toNat = i by omega]
    exact List.getD_eq_getElem _ _ (by simpa using h2)

/-- C5: for a valid selection the writer built by the extraction loop has
exactly as many pages as the selection, its `i`-th page is the source page
the `i`-th selected number points at, and selecting the full range
`1..total_pages` reproduces the source pages in their original order. -/
theorem c5_extract_selected_pages (pages : List PyPage) (nums : List Int)
    (hvalid : ∀ n ∈ nums, 1 ≤ n ∧ n ≤ (pages.length : Int)) :
    (split_pdf_loop pages nums).1.length = nums.length ∧
    (∀ i, (hi : i < nums.length) →
       (nums[i] - 1).toNat < pages.length ∧
       (split_pdf_loop pages nums).1.getD i defaultPage =
         pages.getD (nums[i] - 1).toNat defaultPage) ∧
    (split_pdf_loop pages (pyRange 1 (pages.length : Int))).1 = pages := by
  refine ⟨?_, ?_, ?_⟩
  · rw [split_pdf_loop_eq]; simp
  · intro i hi
    have hmem := hvalid nums[i] (List.getElem_mem hi)
    refine ⟨by omega, ?_⟩
    rw [split_pdf_loop_eq]
    rw [List.getD_eq_getElem _ _ (by simpa using hi)]
    simp [List.getElem_map, pageAt]
  · rw [split_pdf_loop_eq]
    exact map_pageAt_range pages

theorem c5_witness :
    (∀ n ∈ ([1, 2] : List Int),
       1 ≤ n ∧ n ≤ (([⟨1, "a"⟩, ⟨2, "b"⟩] : List PyPage).length : Int)) ∧
    (split_pdf_loop [⟨1, "a"⟩, ⟨2, "b"⟩] [1, 2]).1.length =
      ([1, 2] : List Int).length := by
  have h : ∀ n ∈ ([1, 2] : List Int),
      1 ≤ n ∧ n ≤ (([⟨1, "a"⟩, ⟨2, "b"⟩] : List PyPage).length : Int) := by decide
  exact ⟨h, (c5_extract_selected_pages [⟨1, "a"⟩, ⟨2, "b"⟩] [1, 2] h).1⟩

theorem pyStrip_eq_rstrip {l : List Char} (h : l.dropWhile isPySpace = l) :
    pyStripChars l = pyRStripChars l := by
  unfold pyStripChars pyRStripChars
  rw [h]

/-- C8: the text accumulated by the extraction loop and then stripped is
exactly the spec's description: one separator block per selected page in
order — header line `=== Page N ===`, the page's text, a blank line —
with the concatenation trimmed of trailing whitespace (the leading trim
performed by `str.strip` never removes anything because the text, when
nonempty, starts with the header's `=`). -/
theorem c8_text_matches_spec (pages : List PyPage) (nums : List Int) :
    split_pdf_text pages nums = specExtractedText pages nums := by
  unfold split_pdf_text specExtractedText
  have hloop : (split_pdf_loop pages nums).2 =
      (nums.map (pageBlock pages)).flatten := by
    rw [split_pdf_loop_eq]
  rw [hloop]
  apply pyStrip_eq_rstrip
  cases nums with
  | nil => rfl
  | cons n rest =>
    simp only [List.map_cons, List.flatten_cons]
    have hpb : ∃ t, pageBlock pages n ++ (rest.map (pageBlock pages)).flatten =
        '=' :: t := by
      unfold pageBlock
      rw [show ("=== Page ".data : List Char) = '=' :: "== Page ".data from rfl]
      simp only [List.cons_append]
      exact ⟨_, rfl⟩
    obtain ⟨t, ht⟩ := hpb
    rw [ht, List.dropWhile_cons, if_neg (by decide)]

theorem batchStep_notpdf (p : List Char) (st : BatchState) (f : PyUploadFile)
    (h : endsWithPdf f.filename = false) :
    batchStep p st f =
      { st with errors := st.errors ++
          ["Skipped " ++ String.mk f.filename ++ ": Not a PDF file"] } := by
  unfold batchStep
  rw [if_pos h]

theorem batchStep_success (p : List Char) (st : BatchState) (f : PyUploadFile)
    (hp : endsWithPdf f.filename = true) {pg : List PyPage} {nums : List Int}
    (hr : f.readResult = .ok pg)
    (hs : parse_page_selection p (pg.length : Int) = .ok nums) :
    batchStep p st f =
      { st with
          processed := st.processed + 1
          archive := st.archive ++
            [("extracted_" ++ String.mk (splitextStem f.filename) ++ ".pdf",
              writerPages pg nums)] } := by
  simp only [batchStep, hr, hs]
  rw [if_neg (by simp [hp])]

theorem batchStep_dichotomy (p : List Char) (st : BatchState) (f : PyUploadFile) :
    ((batchStep p st f).processed = st.processed + 1 ∧
     (batchStep p st f).errors = st.errors ∧
     (batchStep p st f).archive.length = st.archive.length + 1) ∨
    ((batchStep p st f).processed = st.processed ∧
     (batchStep p st f).errors.length = st.errors.length + 1 ∧
     (batchStep p st f).archive = st.archive) := by
  unfold batchStep
  by_cases h : endsWithPdf f.filename = false
  · right; rw [if_pos h]; simp
  · rw [if_neg h]
    cases hr : f.readResult with
    | error e => right; simp [hr]
    | ok pg =>
      cases hparse : parse_page_selection p (pg.length : Int) with
      | error e => right; simp [hr, hparse]
      | ok nums => left; simp [hr, hparse]

theorem batch_counts (p : List Char) :
    ∀ (files : List PyUploadFile) (st : BatchState),
      (files.foldl (batchStep p) st).processed +
          (files.foldl (batchStep p) st).errors.length =
        st.processed + st.errors.length + files.length ∧
      (files.foldl (batchStep p) st).archive.length +
          (files.foldl (batchStep p) st).errors.length =
        st.archive.length + st.errors.length + files.length := by
  intro files
  induction files with
  | nil => intro st; simp
  | cons f rest ih =>
    intro st
    simp only [List.foldl_cons, List.length_cons]
    obtain ⟨ih1, ih2⟩ := ih (batchStep p st f)
    rcases batchStep_dichotomy p st f with ⟨h1, h2, h3⟩ | ⟨h1, h2, h3⟩
    · have h2l : (batchStep p st f).errors.length = st.errors.length := by
        rw [h2]
      constructor <;> omega
    · have h3l : (batchStep p st f).archive.length = st.archive.length := by
        rw [h3]
      constructor <;> omega

/-- C2: a batch in which zero documents succeed fails as a whole with the
`NoDocumentsProcessed` error ("No files were processed successfully"), and
no `BatchResponse` — hence no archive — is handed to the caller (the
source also deletes the partial ZIP file at that point). -/
theorem c2_zero_success_fails_batch (files : List PyUploadFile)
    (p : List Char) (hne : files ≠ [])
    (h0 : (files.foldl (batchStep p) ⟨0, [], []⟩).processed = 0) :
    batch_process files p = .error "No files were processed successfully" ∧
    ∀ resp : BatchResponse, batch_process files p ≠ .ok resp := by
  have hie : files.isEmpty = false := by
    cases files with
    | nil => exact absurd rfl hne
    | cons a l => rfl
  have hmain : batch_process files p = .error "No files were processed successfully" := by
    simp only [batch_process, hie]
    rw [if_neg (by simp), if_pos h0]
  exact ⟨hmain, fun resp hc => by rw [hmain] at hc; exact Except.noConfusion hc⟩

theorem c2_witness :
    batch_process [⟨"a.txt".data, .ok [⟨1, "t"⟩]⟩] "1".data =
      .error "No files were processed successfully" :=
  (c2_zero_success_fails_batch [⟨"a.txt".data, .ok [⟨1, "t"⟩]⟩] "1".data
    (by simp) rfl).1

/-- C4: a document whose name does not case-insensitively end in `.pdf` is
skipped with the recorded error "Skipped <name>: Not a PDF file" and the
loop state is otherwise untouched, so the remaining documents are still
processed; in a batch of three documents where only the second has a
non-PDF name, the result reports 2 processed of 3 total with exactly that
one error string, which contains "Not a PDF file" and the document's
name. -/
theorem c4_nonpdf_skipped_others_processed :
    (∀ (p : List Char) (st : BatchState) (f : PyUploadFile),
       endsWithPdf f.filename = false →
       batchStep p st f =
         { st with errors := st.errors ++
             ["Skipped " ++ String.mk f.filename ++ ": Not a PDF file"] }) ∧
    (∀ (p : List Char) (f1 f2 f3 : PyUploadFile),
       fileSucceeds p f1 → endsWithPdf f2.filename = false →
       fileSucceeds p f3 →
       respSummary (batch_process [f1, f2, f3] p) =
         some (2, 3,
           ["Skipped " ++ String.mk f2.filename ++ ": Not a PDF file"]) ∧
       hasSubSeq "Not a PDF file".data
         ("Skipped " ++ String.mk f2.filename ++ ": Not a PDF file").data = true ∧
       hasSubSeq f2.filename
         ("Skipped " ++ String.mk f2.filename ++ ": Not a PDF file").data = true) := by
  refine ⟨fun p st f h => batchStep_notpdf p st f h, ?_⟩
  intro p f1 f2 f3 h1 h2 h3
  obtain ⟨hp1, pg1, nums1, hr1, hs1⟩ := h1
  obtain ⟨hp3, pg3, nums3, hr3, hs3⟩ := h3
  refine ⟨?_, ?_, ?_⟩
  · simp only [batch_process]
    rw [if_neg (by simp)]
    simp only [List.foldl_cons, List.foldl_nil]
    rw [batchStep_success p ⟨0, [], []⟩ f1 hp1 hr1 hs1]
    rw [batchStep_notpdf p _ f2 h2]
    rw [batchStep_success p _ f3 hp3 hr3 hs3]
    rw [if_neg (by simp)]
    simp [respSummary]
  · have hd : ("Skipped " ++ String.mk f2.filename ++ ": Not a PDF file").data =
        "Skipped ".data ++ (f2.filename ++
          ([':', ' '] ++ "Not a PDF file".data)) := rfl
    rw [hd]
    apply hasSubSeq_append_right
    apply hasSubSeq_append_right
    apply hasSubSeq_append_right
    apply hasSubSeq_of_startsWith
    have h := startsWithSeq_self_append "Not a PDF file".data []
    rwa [List.append_nil] at h
  · have hd : ("Skipped " ++ String.mk f2.filename ++ ": Not a PDF file").data =
        "Skipped ".data ++ (f2.filename ++ ": Not a PDF file".data) := rfl
    rw [hd]
    apply hasSubSeq_append_right
    apply hasSubSeq_of_startsWith
    exact startsWithSeq_self_append f2.filename ": Not a PDF file".data

theorem c4_witness :
    respSummary (batch_process
      [⟨"a.pdf".data, .ok [⟨1, "t1"⟩]⟩,
       ⟨"b.txt".data, .ok [⟨2, "t2"⟩]⟩,
       ⟨"c.PDF".data, .ok [⟨3, "t3"⟩]⟩] "1".data) =
      some (2, 3, ["Skipped " ++ String.mk "b.txt".data ++ ": Not a PDF file"]) := by
  have h1 : fileSucceeds "1".data ⟨"a.pdf".data, .ok [⟨1, "t1"⟩]⟩ :=
    ⟨rfl, [⟨1, "t1"⟩], [1], rfl, rfl⟩
  have h3 : fileSucceeds "1".data ⟨"c.PDF".data, .ok [⟨3, "t3"⟩]⟩ :=
    ⟨rfl, [⟨3, "t3"⟩], [1], rfl, rfl⟩
  exact (c4_nonpdf_skipped_others_processed.2 "1".data
    ⟨"a.pdf".data, .ok [⟨1, "t1"⟩]⟩ ⟨"b.txt".data, .ok [⟨2, "t2"⟩]⟩
    ⟨"c.PDF".data, .ok [⟨3, "t3"⟩]⟩ h1 rfl h3).1

/-- C10: every submitted document contributes exactly one of a success (one
archive entry, counter bump) or one recorded error string; consequently a
returned report satisfies `processed_files + |errors| = total_files`,
`processed_files = |archive|`, and `total_files = |files|`. -/
theorem c10_batch_accounting (files : List PyUploadFile) (p : List Char)
    (resp : BatchResponse) (h : batch_process files p = .ok resp) :
    resp.processed_files + resp.errors.length = resp.total_files ∧
    resp.processed_files = resp.archive.length ∧
    resp.total_files = files.length ∧
    (∀ (st : BatchState) (f : PyUploadFile),
       ((batchStep p st f).processed = st.processed + 1 ∧
        (batchStep p st f).errors = st.errors ∧
        (batchStep p st f).archive.length = st.archive.length + 1) ∨
       ((batchStep p st f).processed = st.processed ∧
        (batchStep p st f).errors.length = st.errors.length + 1 ∧
        (batchStep p st f).archive = st.archive)) := by
  simp only [batch_process] at h
  by_cases hie : files.isEmpty = true
  · rw [if_pos hie] at h; exact absurd h (by simp)
  · rw [if_neg hie] at h
    by_cases h0 : (files.foldl (batchStep p) ⟨0, [], []⟩).processed = 0
    · rw [if_pos h0] at h; exact absurd h (by simp)
    · rw [if_neg h0] at h
      obtain ⟨c1, c2⟩ := batch_counts p files ⟨0, [], []⟩
      cases h
      refine ⟨?_, ?_, rfl, fun st f => batchStep_dichotomy p st f⟩
      · simpa using c1
      · simp only [List.length_nil] at c1 c2
        show (files.foldl (batchStep p) ⟨0, [], []⟩).processed =
          (files.foldl (batchStep p) ⟨0, [], []⟩).archive.length
        omega

theorem c10_witness :
    batch_process [⟨"a.pdf".data, .ok [⟨1, "t1"⟩]⟩] "1".data =
      .ok ⟨1, 1, [], [("extracted_a.pdf", [⟨1, "t1"⟩])]⟩ ∧
    (1 : Nat) + ([] : List String).length = 1 ∧
    (1 : Nat) = [("extracted_a.pdf", [(⟨1, "t1"⟩ : PyPage)])].length := by
  have h := c10_batch_accounting [⟨"a.pdf".data, .ok [⟨1, "t1"⟩]⟩] "1".data
    ⟨1, 1, [], [("extracted_a.pdf", [⟨1, "t1"⟩])]⟩ rfl
  exact ⟨rfl, h.1, h.2.1⟩
